import Mathlib

/-!
# Formal model of the fastcgi client core

Shallow embedding of the record codec, parameter length encoding, chunked
stream writer, request exchange control flow and request-id allocator of the
fastcgi client repository (src/meta.rs, src/client.rs, src/response.rs).

Machine integers are modelled as `Nat` holding the unsigned bit pattern, with
explicit reduction modulo `2 ^ w` wherever the source can wrap; fallible
writes are modelled by threading an explicit byte sink together with one
acceptance flag per `write_all` call, and an `Except` result mirroring
`io::Result`.
-/

namespace FastCgiClient

/-- Record types of the protocol, src/meta.rs `RequestType` (`repr(u8)`,
discriminants 1..10). -/
inductive RequestType
  | BeginRequest
  | AbortRequest
  | EndRequest
  | Params
  | Stdin
  | Stdout
  | Stderr
  | Data
  | GetValues
  | GetValuesResult
  deriving DecidableEq

/-- Numeric discriminant of a `RequestType`, the `repr(u8)` value used by
`self.r#type as u8` in src/meta.rs. -/
def RequestType.code : RequestType → Nat
  | .BeginRequest => 1
  | .AbortRequest => 2
  | .EndRequest => 3
  | .Params => 4
  | .Stdin => 5
  | .Stdout => 6
  | .Stderr => 7
  | .Data => 8
  | .GetValues => 9
  | .GetValuesResult => 10

/-- src/meta.rs `VERSION_1`. -/
def VERSION_1 : Nat := 1

/-- src/meta.rs `MAX_LENGTH`, the maximum record payload size 0xffff. -/
def MAX_LENGTH : Nat := 0xffff

/-- src/meta.rs `Header`: the 8-byte frame header. Every field holds the
unsigned bit pattern of the source's u8/u16 field. -/
structure Header where
  version : Nat
  type : RequestType
  request_id : Nat
  content_length : Nat
  padding_length : Nat
  reserved : Nat
  deriving DecidableEq

/-- src/meta.rs `Header::new`. `content_length` is
`min(content.len(), MAX_LENGTH) as u16`; `padding_length` embeds
`(-(content_length as i16) & 7) as u8` computed on two's-complement bit
patterns: the 16-bit pattern of the negation is `(2^16 - cl % 2^16) % 2^16`,
its bitwise AND with 7 keeps the low three bits, i.e. the residue modulo 8
(8 divides 2^16, so this is the mathematical value mod 8), and the cast to
u8 leaves that value below 8 unchanged. -/
def Header.new (type : RequestType) (request_id : Nat) (content : List Nat) : Header :=
  let content_length := min content.length MAX_LENGTH
  { version := VERSION_1
    type := type
    request_id := request_id
    content_length := content_length
    padding_length := ((2 ^ 16 - content_length % 2 ^ 16) % 2 ^ 16) % 8
    reserved := 0 }

/-- Big-endian byte pair of a u16 value, `write_u16::<BigEndian>`. -/
def be16 (n : Nat) : List Nat := [n / 2 ^ 8 % 2 ^ 8, n % 2 ^ 8]

/-- The possible failure of a sink write (`io::Error` collapses to one case:
the claims only distinguish acceptance from rejection). -/
inductive IoError
  | rejected
  deriving DecidableEq

/-- One `write_all` call against a sink that either accepts the bytes in full
(`ok = true`) or rejects them. -/
def writeAll (sink : List Nat) (bytes : List Nat) (ok : Bool) :
    List Nat × Except IoError Unit :=
  if ok then (sink ++ bytes, .ok ()) else (sink, .error .rejected)

/-- src/meta.rs `Header::write_to_stream`: serialize the 8 header bytes into
`buf`, then issue three `write_all` calls — header buffer, content, padding
zero bytes — whose acceptance is `ok₁ ok₂ ok₃`. The first two calls
propagate failure with `?`; the result of the third call (padding, line 77)
is discarded by the source, mirrored here by keeping only the sink and
returning `Ok`. -/
def Header.write_to_stream (self : Header) (content : List Nat) (sink : List Nat)
    (ok₁ ok₂ ok₃ : Bool) : List Nat × Except IoError Unit :=
  let buf := [self.version, self.type.code] ++ be16 self.request_id ++
    be16 self.content_length ++ [self.padding_length, self.reserved]
  match writeAll sink buf ok₁ with
  | (s, .error e) => (s, .error e)
  | (s, .ok _) =>
    match writeAll s content ok₂ with
    | (s', .error e) => (s', .error e)
    | (s', .ok _) =>
      ((writeAll s' (List.replicate self.padding_length 0) ok₃).1, .ok ())

/-- One record as it appears on the wire: its header and its content bytes. -/
structure FcgiRecord where
  header : Header
  content : List Nat
  deriving DecidableEq

/-- src/meta.rs `Header::write_to_stream_batches`: a single `content.read`
into a 65535-byte buffer — for a byte-slice source this yields the first
`min 65535 source.length` bytes — then exactly one record built from that
chunk by `Header::new` and written by `Header::write_to_stream`. The
record-level view is returned. -/
def Header.write_to_stream_batches (type : RequestType) (request_id : Nat)
    (source : List Nat) : FcgiRecord :=
  let chunk := source.take MAX_LENGTH
  ⟨Header.new type request_id chunk, chunk⟩

/-- The Params or Stdin channel as driven by `handle_fastcgi_request`
(src/client.rs lines 103-151): one `write_to_stream_batches` call on the
source, followed by one on an empty source intended as the end-of-stream
record. -/
def sendStream (type : RequestType) (request_id : Nat) (source : List Nat) :
    List FcgiRecord :=
  [Header.write_to_stream_batches type request_id source,
   Header.write_to_stream_batches type request_id []]

/-- src/meta.rs `Role` (`repr(u16)`). -/
inductive Role
  | Responder
  | Authorizer
  | Filter
  deriving DecidableEq

/-- Numeric discriminant of a `Role`, the `repr(u16)` value. -/
def Role.code : Role → Nat
  | .Responder => 1
  | .Authorizer => 2
  | .Filter => 3

/-- src/meta.rs `BeginRequest` payload. -/
structure BeginRequest where
  role : Role
  flags : Nat
  reserved : List Nat
  deriving DecidableEq

/-- src/meta.rs `BeginRequest::new`: `flags` is `keep_alive as u8`. -/
def BeginRequest.new (role : Role) (keep_alive : Bool) : BeginRequest :=
  ⟨role, if keep_alive then 1 else 0, List.replicate 5 0⟩

/-- src/meta.rs `BeginRequest::to_content`: role as big-endian u16, the flag
byte, then the five reserved bytes. -/
def BeginRequest.to_content (self : BeginRequest) : List Nat :=
  be16 self.role.code ++ [self.flags] ++ self.reserved

/-- src/meta.rs `BeginRequestRec`. -/
structure BeginRequestRec where
  header : Header
  begin_request : BeginRequest
  content : List Nat
  deriving DecidableEq

/-- src/meta.rs `BeginRequestRec::new`. -/
def BeginRequestRec.new (request_id : Nat) (role : Role) (keep_alive : Bool) :
    BeginRequestRec :=
  let begin_request := BeginRequest.new role keep_alive
  let content := begin_request.to_content
  ⟨Header.new .BeginRequest request_id content, begin_request, content⟩

/-- src/meta.rs `BeginRequestRec::write_to_stream`: delegates to
`Header::write_to_stream` with the record's content. -/
def BeginRequestRec.write_to_stream (self : BeginRequestRec) (sink : List Nat)
    (ok₁ ok₂ ok₃ : Bool) : List Nat × Except IoError Unit :=
  self.header.write_to_stream self.content sink ok₁ ok₂ ok₃

/-- src/meta.rs `ParamLength`: the short (u8) or long (u32) wire form of a
name/value length. -/
inductive ParamLength
  | Short (l : Nat)
  | Long (l : Nat)
  deriving DecidableEq

/-- src/meta.rs `ParamLength::new`: lengths below 128 keep the short form
(`length as u8`); otherwise bit 31 is set (`length |= 1 << 31`) and the
result truncated to u32 (`length as u32`). -/
def ParamLength.new (length : Nat) : ParamLength :=
  if length < 128 then .Short (length % 2 ^ 8)
  else .Long ((length ||| 1 <<< 31) % 2 ^ 32)

/-- src/meta.rs `ParamLength::content`: the single byte, or the u32 written
big-endian. -/
def ParamLength.content : ParamLength → List Nat
  | .Short l => [l]
  | .Long l => [l / 2 ^ 24 % 2 ^ 8, l / 2 ^ 16 % 2 ^ 8, l / 2 ^ 8 % 2 ^ 8, l % 2 ^ 8]

/-- Decoder from the spec's wording (§4.2 of the spec): a single byte is the
magnitude; a four-byte big-endian value has bit 31 masked off, i.e. the top
bit of the first byte cleared. -/
def decode_length : List Nat → Option Nat
  | [b] => some b
  | [b0, b1, b2, b3] => some ((b0 % 128) * 2 ^ 24 + b1 * 2 ^ 16 + b2 * 2 ^ 8 + b3)
  | _ => none

/-- Signed 16-bit value of a u16 bit pattern (`content_length as i16`). -/
def i16_of_u16 (n : Nat) : Int :=
  if n % 2 ^ 16 < 2 ^ 15 then (n % 2 ^ 16 : Nat) else (n % 2 ^ 16 : Nat) - 2 ^ 16

/-- Overflow-checked i16 negation: negating the single value `-(2^15)` has no
i16 result (32768 is out of range), which aborts a build with overflow
checks enabled; every other i16 value negates cleanly. -/
def i16_checked_neg (x : Int) : Option Int :=
  if x = -(2 ^ 15) then none else some (-x)

/-- The padding expression of `Header::new` under overflow-checked semantics:
`(-(content_length as i16) & 7) as u8`, where a successful i16 negation is
followed by the bitwise AND with 7 — on two's complement, the nonnegative
residue modulo 8 — left unchanged by the cast to u8. Returns `none` exactly
when the negation overflows. -/
def padding_checked (content_length : Nat) : Option Nat :=
  (i16_checked_neg (i16_of_u16 content_length)).map (fun v => (v % 8).toNat)

/-- src/meta.rs `ProtocolStatus` (`repr(u8)`, discriminants 0..3). -/
inductive ProtocolStatus
  | RequestComplete
  | CantMpxConn
  | Overloaded
  | UnknownRole
  deriving DecidableEq

/-- Error variants surfaced by src/client.rs (the error enumeration itself is
not under src/; only the variants the client constructs are distinguished,
every underlying transport failure collapsing into `IoFailed`). -/
inductive ClientError
  | ResponseNotFound (id : Nat)
  | UnexpectedEndOfOutput (id : Nat) (output_type : RequestType) (written expected : Nat)
  | UnknownRequestType (request_type : RequestType)
  | AppError (protocol_status : ProtocolStatus) (app_status : Nat)
  | IoFailed
  | AllocTimeout
  deriving DecidableEq

/-- Observable calls the client makes on its request id generator. -/
inductive AllocEvent
  | alloc (id : Nat)
  | release (id : Nat)
  deriving DecidableEq

/-- src/client.rs `Client::handle_new_request`: allocate an id (its outcome
is the oracle `allocResult`), send the request (`requestResult`); on send
failure release the id and propagate the error, otherwise return the id.
The returned trace lists the generator calls in order. -/
def handle_new_request (allocResult : Except ClientError Nat)
    (requestResult : Nat → Except ClientError Unit) :
    List AllocEvent × Except ClientError Nat :=
  match allocResult with
  | .error e => ([], .error e)
  | .ok id =>
    match requestResult id with
    | .ok _ => ([.alloc id], .ok id)
    | .error e => ([.alloc id, .release id], .error e)

/-- src/client.rs `Client::handle_response`: read the response (its outcome
is the oracle `responseResult`), release the id unconditionally, and return
the read outcome. -/
def handle_response (id : Nat) (responseResult : Except ClientError Unit) :
    List AllocEvent × Except ClientError Unit :=
  ([.release id], responseResult)

/-- src/client.rs `Client::execute`: `handle_new_request` and then, with the
id it returned, `handle_response`; the `?` on the first call
short-circuits, so `handle_response` only runs when sending succeeded. -/
def execute (allocResult : Except ClientError Nat)
    (requestResult responseResult : Nat → Except ClientError Unit) :
    List AllocEvent × Except ClientError Unit :=
  match handle_new_request allocResult requestResult with
  | (tr, .error e) => (tr, .error e)
  | (tr, .ok id) =>
    let step := handle_response id (responseResult id)
    (tr ++ step.1, step.2)

/-- One incoming response record as read by `Header::new_from_stream` plus
`read_content_from_stream` (helpers of this repository that only have
callers under src/): the decoded header fields that the loop inspects and
the record's content bytes. -/
structure InRecord where
  request_id : Nat
  type : RequestType
  content : List Nat
  deriving DecidableEq

/-- Modelled from the spec: the wire byte of each protocol status (§3); an
unrecognized byte is a decode error. -/
def protocol_status_of_byte (b : Nat) : Option ProtocolStatus :=
  match b with
  | 0 => some .RequestComplete
  | 1 => some .CantMpxConn
  | 2 => some .Overloaded
  | 3 => some .UnknownRole
  | _ => none

/-- Modelled from the spec: `EndRequestRec::from_header` is not under src/;
per §6 the EndRequest body is 8 bytes `[app_status:4 BE][protocol_status:1]
[reserved:3]`. -/
def parse_end_request (content : List Nat) : Option (Nat × ProtocolStatus) :=
  match content with
  | a0 :: a1 :: a2 :: a3 :: ps :: _ =>
    (protocol_status_of_byte ps).map fun s =>
      (((a0 * 2 ^ 8 + a1) * 2 ^ 8 + a2) * 2 ^ 8 + a3, s)
  | _ => none

/-- Modelled from the spec: `ProtocolStatus::convert_to_client_result`
(called at src/client.rs line 224, not under src/): RequestComplete is
success; every other status is a failure carrying the status and the
application status (§4.5 step 4). -/
def convert_to_client_result (ps : ProtocolStatus) (app_status : Nat) :
    Except ClientError Unit :=
  match ps with
  | .RequestComplete => .ok ()
  | s => .error (.AppError s app_status)

/-- src/client.rs `handle_fastcgi_response`, the response read loop over the
incoming records: a record whose request_id differs from `id` fails with
ResponseNotFound before its content is processed; Stdout/Stderr content is
appended to the matching accumulator, with the per-call written length given
by the sink oracles `wOut`/`wErr` (as `AsyncWriteExt::write` returns) and a
short write failing with UnexpectedEndOfOutput; EndRequest leaves the loop
and converts the protocol status; any other type is UnknownRequestType; an
exhausted source is a read failure. -/
def handle_fastcgi_response (id : Nat) (wOut wErr : List Nat → Nat) :
    List InRecord → List Nat → List Nat →
    List Nat × List Nat × Except ClientError Unit
  | [], stdout, stderr => (stdout, stderr, .error .IoFailed)
  | r :: rs, stdout, stderr =>
    if r.request_id ≠ id then (stdout, stderr, .error (.ResponseNotFound id))
    else
      match r.type with
      | .Stdout =>
        let written := wOut r.content
        if written = r.content.length then
          handle_fastcgi_response id wOut wErr rs (stdout ++ r.content) stderr
        else (stdout ++ r.content.take written, stderr,
          .error (.UnexpectedEndOfOutput id .Stdout written r.content.length))
      | .Stderr =>
        let written := wErr r.content
        if written = r.content.length then
          handle_fastcgi_response id wOut wErr rs stdout (stderr ++ r.content)
        else (stdout, stderr ++ r.content.take written,
          .error (.UnexpectedEndOfOutput id .Stderr written r.content.length))
      | .EndRequest =>
        match parse_end_request r.content with
        | none => (stdout, stderr, .error .IoFailed)
        | some (app_status, ps) => (stdout, stderr, convert_to_client_result ps app_status)
      | t => (stdout, stderr, .error (.UnknownRequestType t))

/-- Modelled from the spec: the RequestIdGenerator (not under src/; only its
calls appear in src/client.rs). State of the request-id allocator per §3:
the ids 1..=65535 partitioned into the free pool, the ids in use, and the
ids already transferred to a waiter that has not resumed yet. -/
structure AllocatorState where
  free : Finset Nat
  in_use : Finset Nat
  granted : Finset Nat

/-- Modelled from the spec: the atomic transitions the allocator performs
under concurrent callers (§4.4): allocate removes a free id and hands it
out; release either returns an in-use id to the free pool or transfers it
directly to the longest-waiting caller; a woken waiter starts using its
granted id. A timed-out allocate changes nothing, so it needs no
transition. Any interleaving of concurrent calls is a path of this
relation. -/
inductive AllocatorStep : AllocatorState → AllocatorState → Prop
  | allocate (s : AllocatorState) (i : Nat) (hi : i ∈ s.free) :
      AllocatorStep s ⟨s.free.erase i, insert i s.in_use, s.granted⟩
  | release_to_free (s : AllocatorState) (i : Nat) (hi : i ∈ s.in_use) :
      AllocatorStep s ⟨insert i s.free, s.in_use.erase i, s.granted⟩
  | release_to_waiter (s : AllocatorState) (i : Nat) (hi : i ∈ s.in_use) :
      AllocatorStep s ⟨s.free, s.in_use.erase i, insert i s.granted⟩
  | waiter_resumes (s : AllocatorState) (i : Nat) (hi : i ∈ s.granted) :
      AllocatorStep s ⟨s.free, insert i s.in_use, s.granted.erase i⟩

/-- The allocator's initial state: every id of 1..=65535 free, nothing held. -/
def AllocatorState.init : AllocatorState := ⟨Finset.Icc 1 65535, ∅, ∅⟩

/-- The allocator invariant: the three classes are pairwise disjoint and
together exactly the id space 1..=65535, so each id is at any instant in
exactly one of free, in-use, granted-to-a-waiter. -/
def AllocatorInv (s : AllocatorState) : Prop :=
  Disjoint s.free s.in_use ∧ Disjoint s.free s.granted ∧
    Disjoint s.in_use s.granted ∧
    s.free ∪ s.in_use ∪ s.granted = Finset.Icc 1 65535

/-- Claim C3: for every content, the header built by `Header::new` satisfies
`padding_length = (8 - content_length % 8) % 8`, hence
`(content_length + padding_length) % 8 = 0` and `padding_length < 8`. The
quantification over arbitrary content covers every `content_length` in
`0..=65535`, since `content_length = min content.length 65535`. -/
theorem padding_invariant (type : RequestType) (request_id : Nat) (content : List Nat) :
    (Header.new type request_id content).padding_length
        = (8 - (Header.new type request_id content).content_length % 8) % 8 ∧
      ((Header.new type request_id content).content_length
        + (Header.new type request_id content).padding_length) % 8 = 0 ∧
      (Header.new type request_id content).padding_length < 8 := by
  have h : min content.length MAX_LENGTH ≤ 65535 := by
    simp [MAX_LENGTH]
  simp only [Header.new]
  refine ⟨?_, ?_, ?_⟩ <;> omega

/-- Claim C7: serializing a BeginRequest record with role Responder,
keep-alive true and request id 1 emits exactly the header bytes
`01 01 00 01 00 08 00 00` followed by the content bytes
`00 01 01 00 00 00 00 00`, with zero padding bytes. -/
theorem begin_request_bytes :
    (BeginRequestRec.new 1 .Responder true).write_to_stream [] true true true
        = ([1, 1, 0, 1, 0, 8, 0, 0, 0, 1, 1, 0, 0, 0, 0, 0], .ok ())
      ∧ (BeginRequestRec.new 1 .Responder true).header.padding_length = 0 := by
  constructor <;> rfl

/-- Claim C4 (counterexample): at length `2 ^ 31`, the encoding is the four
bytes `80 00 00 00`, whose decoding (masking off bit 31) yields 0, not the
original magnitude — the claim's universal round-trip fails there. -/
theorem param_length_roundtrip_fails_at_two_pow_31 :
    (ParamLength.new (2 ^ 31)).content = [128, 0, 0, 0] ∧
      decode_length (ParamLength.new (2 ^ 31)).content = some 0 ∧
      (0 : Nat) ≠ 2 ^ 31 := by
  refine ⟨rfl, rfl, by decide⟩

/-- Claim C4 (amended): for every length `n < 2 ^ 31` — the spec's contract
excludes larger lengths — the encoding yields exactly one byte holding `n`
when `n < 128`, and exactly four big-endian bytes with the top bit of the
first byte set when `128 ≤ n`; in both forms decoding recovers `n`, so in
particular 127 encodes to one byte and 128 to four bytes with bit 31 set. -/
theorem param_length_encoding (n : Nat) (h : n < 2 ^ 31) :
    (n < 128 → (ParamLength.new n).content = [n]) ∧
      (128 ≤ n → (ParamLength.new n).content.length = 4 ∧
        128 ≤ (ParamLength.new n).content.headI) ∧
      decode_length (ParamLength.new n).content = some n := by
  by_cases h128 : n < 128
  · have hn : n % 2 ^ 8 = n := Nat.mod_eq_of_lt (by omega)
    refine ⟨fun _ => ?_, fun hc => absurd hc (by omega), ?_⟩ <;>
      simp [ParamLength.new, h128, ParamLength.content, decode_length, hn] <;>
      omega
  · have hval : n ||| 1 <<< 31 = n + 2 ^ 31 := by
      have h2 := Nat.mul_add_lt_is_or (i := 31) (b := n) h 1
      rw [Nat.mul_one] at h2
      rw [Nat.shiftLeft_eq, Nat.one_mul, Nat.lor_comm]
      omega
    have hmod : (n + 2 ^ 31) % 2 ^ 32 = n + 2 ^ 31 := Nat.mod_eq_of_lt (by omega)
    have hlong : ParamLength.new n = .Long (n + 2 ^ 31) := by
      unfold ParamLength.new
      rw [if_neg h128, hval, hmod]
    have hcontent : (ParamLength.new n).content
        = [(n + 2 ^ 31) / 2 ^ 24 % 2 ^ 8, (n + 2 ^ 31) / 2 ^ 16 % 2 ^ 8,
           (n + 2 ^ 31) / 2 ^ 8 % 2 ^ 8, (n + 2 ^ 31) % 2 ^ 8] := by
      rw [hlong]
      rfl
    refine ⟨fun hc => absurd hc h128, fun _ => ⟨?_, ?_⟩, ?_⟩
    · rw [hcontent]
      rfl
    · have hh : (ParamLength.new n).content.headI = (n + 2 ^ 31) / 2 ^ 24 % 2 ^ 8 := by
        rw [hcontent, List.headI_cons]
      omega
    · rw [hcontent]
      simp only [decode_length, Option.some.injEq]
      omega

/-- Claim C4 (amended, witness): at the boundary, 127 encodes to the single
byte 127 and 128 to four bytes whose first byte has the top bit set, both
decoding back to the original magnitude. -/
theorem param_length_encoding_witness :
    (ParamLength.new 127).content = [127] ∧
      (ParamLength.new 128).content.length = 4 ∧
      128 ≤ (ParamLength.new 128).content.headI ∧
      decode_length (ParamLength.new 127).content = some 127 ∧
      decode_length (ParamLength.new 128).content = some 128 :=
  ⟨(param_length_encoding 127 (by decide)).1 (by decide),
    ((param_length_encoding 128 (by decide)).2.1 (by decide)).1,
    ((param_length_encoding 128 (by decide)).2.1 (by decide)).2,
    (param_length_encoding 127 (by decide)).2.2,
    (param_length_encoding 128 (by decide)).2.2⟩

/-- Claim C6 (code evaluation at the failing input): for the record built
from content `[0]` (hence `padding_length = 7`), a sink that accepts the
header and content writes but rejects the padding write still makes
`write_to_stream` return `Ok`, with only the 9 header/content bytes
emitted: the `Result` of the padding write at src/meta.rs line 77 is
discarded. -/
theorem padding_write_error_ignored :
    ((Header.new .Stdin 1 [0]).write_to_stream [0] [] true true false).2 = .ok () ∧
      (Header.new .Stdin 1 [0]).padding_length = 7 ∧
      ((Header.new .Stdin 1 [0]).write_to_stream [0] [] true true false).1.length = 9 := by
  refine ⟨rfl, rfl, rfl⟩

/-- Claim C9: `Header::new` caps `content_length` at `min content.length
65535`, yet `write_to_stream` writes the entire slice after the header, so
with an accepting sink the bytes emitted number `8 + content.length +
padding_length` and, for slices longer than 65535 bytes, the header field no
longer equals the number of payload bytes written. -/
theorem oversized_content_write (type : RequestType) (request_id : Nat)
    (content : List Nat) :
    (Header.new type request_id content).content_length = min content.length 65535 ∧
      ((Header.new type request_id content).write_to_stream content [] true true true).1.length
        = 8 + content.length + (Header.new type request_id content).padding_length ∧
      ((Header.new type request_id content).write_to_stream content [] true true true).2
        = .ok () ∧
      (65535 < content.length →
        (Header.new type request_id content).content_length ≠ content.length) := by
  refine ⟨rfl, ?_, ?_, fun hgt => ?_⟩
  · simp [Header.write_to_stream, writeAll, be16]
    omega
  · simp [Header.write_to_stream, writeAll]
  · simp only [Header.new, MAX_LENGTH]
    omega

/-- Claim C9 (witness): at the 65536-byte all-zero content, the header field
is 65535 and differs from the payload size, while 8 + 65536 + padding bytes
are emitted. -/
theorem oversized_content_write_witness :
    (Header.new .Stdin 1 (List.replicate 65536 0)).content_length = 65535 ∧
      (Header.new .Stdin 1 (List.replicate 65536 0)).content_length ≠ 65536 ∧
      ((Header.new .Stdin 1 (List.replicate 65536 0)).write_to_stream
          (List.replicate 65536 0) [] true true true).1.length
        = 8 + 65536 + (Header.new .Stdin 1 (List.replicate 65536 0)).padding_length := by
  have h := oversized_content_write .Stdin 1 (List.replicate 65536 0)
  have hlen : (List.replicate 65536 (0 : Nat)).length = 65536 :=
    List.length_replicate 65536 0
  refine ⟨?_, ?_, ?_⟩
  · rw [h.1, hlen]
    omega
  · rw [h.1, hlen]
    omega
  · rw [h.2.1, hlen]

/-- Claim C10 (counterexample): at `content_length = 32768` the u16 pattern
reinterprets as the i16 value `-(2^15)`, whose negation overflows, so the
overflow-checked evaluation of the padding expression aborts there rather
than completing. -/
theorem padding_negation_overflow : padding_checked 32768 = none := by
  rfl

/-- Claim C10 (amended): the padding expression of `Header::new` is
panic-free for every `content_length` in `0..=65535` except exactly 32768:
away from 32768 the overflow-checked evaluation succeeds and agrees with
the wrapping evaluation recorded in the header, while at 32768 the i16
negation overflows (see the counterexample), though under wrapping
(release-mode) semantics it still yields padding 0. -/
theorem padding_checked_total_away_from_min (type : RequestType) (request_id : Nat)
    (content : List Nat) (h₁ : content.length ≤ 65535) (h₂ : content.length ≠ 32768) :
    padding_checked content.length
      = some ((Header.new type request_id content).padding_length) := by
  simp only [padding_checked, i16_checked_neg, i16_of_u16, Header.new, MAX_LENGTH]
  split_ifs with ha hb hb <;>
    simp only [Option.map_some', Option.map_none', Option.some.injEq] <;> omega

/-- Claim C10 (amended, witness): at content `[0, 0, 0]` the checked
evaluation succeeds with the header's padding 5. -/
theorem padding_checked_witness : padding_checked 3 = some 5 ∧ (3 : Nat) ≤ 65535 := by
  have h := padding_checked_total_away_from_min .Stdin 1 [0, 0, 0] (by decide) (by decide)
  exact ⟨h, by decide⟩

/-- Claim C1 (code evaluation at the failing input): for a 65536-byte source
(`k = 1`, `r = 1`), the Stdin channel as driven by the client emits exactly
one non-empty record carrying the first 65535 bytes and one empty record —
the final byte is never read or emitted — and an already-exhausted source
yields two empty records, not one. -/
theorem single_read_truncates :
    (sendStream .Stdin 1 (List.replicate 65536 7)).map FcgiRecord.content
        = [List.replicate 65535 7, []] ∧
      List.replicate 65535 7 ≠ List.replicate 65536 (7 : Nat) ∧
      (sendStream .Stdin 1 []).map FcgiRecord.content = [[], []] := by
  have htake : (List.replicate 65536 (7 : Nat)).take MAX_LENGTH = List.replicate 65535 7 := by
    rw [List.take_replicate]
    norm_num [MAX_LENGTH]
  refine ⟨?_, fun hcontra => ?_, ?_⟩
  · simp only [sendStream, Header.write_to_stream_batches, htake, List.take_nil,
      List.map_cons, List.map_nil]
  · have := congrArg List.length hcontra
    simp only [List.length_replicate] at this
    omega
  · simp only [sendStream, Header.write_to_stream_batches, List.take_nil,
      List.map_cons, List.map_nil]

/-- Claim C2: whenever allocation succeeds with some id, every exit path of
`execute` — send-side failure, response-side failure, success — has
released exactly that id exactly once (after allocating it once) by the
time the call returns; specifically `handle_new_request` releases the id
exactly when sending fails, and `handle_response` releases it after the
read regardless of its outcome. -/
theorem id_released_exactly_once (allocResult : Except ClientError Nat)
    (requestResult responseResult : Nat → Except ClientError Unit) (id : Nat)
    (halloc : allocResult = .ok id) :
    (execute allocResult requestResult responseResult).1
        = [.alloc id, .release id] ∧
      (execute allocResult requestResult responseResult).1.count (.release id) = 1 ∧
      (handle_new_request allocResult requestResult).1
        = (match requestResult id with
           | .ok _ => [.alloc id]
           | .error _ => [.alloc id, .release id]) ∧
      (handle_response id (responseResult id)).1 = [.release id] := by
  subst halloc
  cases hreq : requestResult id <;>
    simp [execute, handle_new_request, handle_response, hreq, List.count_cons]

/-- Claim C2 (witness): a concrete failing exchange — id 1 allocated, the
send failing — still shows the single alloc/release pair in the trace. -/
theorem id_released_exactly_once_witness :
    (execute (.ok 1) (fun _ => .error .IoFailed) (fun _ => .ok ())).1
        = [.alloc 1, .release 1] ∧
      (execute (.ok 1) (fun _ => .error .IoFailed) (fun _ => .ok ())).1.count
          (.release 1) = 1 ∧
      (handle_new_request (.ok 1) (fun _ => .error .IoFailed)).1
        = (match (fun _ => Except.error (α := Unit) ClientError.IoFailed) 1 with
           | .ok _ => [AllocEvent.alloc 1]
           | .error _ => [.alloc 1, .release 1]) ∧
      (handle_response 1 ((fun _ => Except.ok (ε := ClientError) ()) 1)).1
        = [.release 1] :=
  id_released_exactly_once (.ok 1) (fun _ => .error .IoFailed) (fun _ => .ok ()) 1 rfl

/-- Claim C5: at whatever point of the read loop a record with a foreign
request id is reached, the exchange fails with ResponseNotFound, the
record's content is not processed (both accumulators are returned
untouched), and `handle_response` still releases the allocated id exactly
once around the loop's result. -/
theorem mismatched_id_fails (id : Nat) (wOut wErr : List Nat → Nat)
    (r : InRecord) (rs : List InRecord) (stdout stderr : List Nat)
    (hne : r.request_id ≠ id) :
    handle_fastcgi_response id wOut wErr (r :: rs) stdout stderr
        = (stdout, stderr, .error (.ResponseNotFound id)) ∧
      (handle_response id
          (handle_fastcgi_response id wOut wErr (r :: rs) [] []).2.2).1
        = [.release id] := by
  exact ⟨by simp [handle_fastcgi_response, hne], rfl⟩

/-- Claim C5 (witness): with id 1 allocated and a scripted response whose
single record carries request id 2, the loop fails with ResponseNotFound
and writes nothing. -/
theorem mismatched_id_fails_witness :
    handle_fastcgi_response 1 (fun c => c.length) (fun c => c.length)
        [⟨2, .Stdout, [7]⟩] [] []
      = ([], [], .error (.ResponseNotFound 1)) :=
  (mismatched_id_fails 1 (fun c => c.length) (fun c => c.length)
    ⟨2, .Stdout, [7]⟩ [] [] [] (by decide)).1

/-- Preservation: each atomic allocator transition keeps the partition
invariant. -/
theorem allocator_step_preserves (s t : AllocatorState)
    (h : AllocatorStep s t) (hs : AllocatorInv s) : AllocatorInv t := by
  obtain ⟨h₁, h₂, h₃, h₄⟩ := hs
  cases h with
  | allocate i hi =>
    refine ⟨?_, ?_, ?_, ?_⟩
    · rw [Finset.disjoint_left]
      intro a ha
      simp only [Finset.mem_erase] at ha
      simp only [Finset.mem_insert]
      rintro (rfl | hin)
      · exact ha.1 rfl
      · exact (Finset.disjoint_left.1 h₁) ha.2 hin
    · rw [Finset.disjoint_left]
      intro a ha
      simp only [Finset.mem_erase] at ha
      exact (Finset.disjoint_left.1 h₂) ha.2
    · rw [Finset.disjoint_left]
      intro a ha
      simp only [Finset.mem_insert] at ha
      rcases ha with rfl | hin
      · exact (Finset.disjoint_left.1 h₂) hi
      · exact (Finset.disjoint_left.1 h₃) hin
    · rw [← h₄]
      ext a
      simp only [Finset.mem_union, Finset.mem_erase, Finset.mem_insert]
      by_cases hai : a = i
      · subst hai
        simp [hi]
      · simp [hai]
  | release_to_free i hi =>
    refine ⟨?_, ?_, ?_, ?_⟩
    · rw [Finset.disjoint_left]
      intro a ha
      simp only [Finset.mem_insert] at ha
      simp only [Finset.mem_erase]
      rcases ha with rfl | hin
      · rintro ⟨hne, _⟩
        exact hne rfl
      · rintro ⟨hne, hin₂⟩
        exact (Finset.disjoint_left.1 h₁) hin hin₂
    · rw [Finset.disjoint_left]
      intro a ha
      simp only [Finset.mem_insert] at ha
      rcases ha with rfl | hin
      · exact (Finset.disjoint_left.1 h₃) hi
      · exact (Finset.disjoint_left.1 h₂) hin
    · rw [Finset.disjoint_left]
      intro a ha
      simp only [Finset.mem_erase] at ha
      exact (Finset.disjoint_left.1 h₃) ha.2
    · rw [← h₄]
      ext a
      simp only [Finset.mem_union, Finset.mem_erase, Finset.mem_insert]
      by_cases hai : a = i
      · subst hai
        simp [hi]
      · simp [hai]
  | release_to_waiter i hi =>
    refine ⟨?_, ?_, ?_, ?_⟩
    · rw [Finset.disjoint_left]
      intro a ha
      simp only [Finset.mem_erase]
      rintro ⟨hne, hin⟩
      exact (Finset.disjoint_left.1 h₁) ha hin
    · rw [Finset.disjoint_left]
      intro a ha
      simp only [Finset.mem_insert]
      rintro (rfl | hin)
      · exact (Finset.disjoint_left.1 h₁) ha hi
      · exact (Finset.disjoint_left.1 h₂) ha hin
    · rw [Finset.disjoint_left]
      intro a ha
      simp only [Finset.mem_erase] at ha
      simp only [Finset.mem_insert]
      rintro (rfl | hin)
      · exact ha.1 rfl
      · exact (Finset.disjoint_left.1 h₃) ha.2 hin
    · rw [← h₄]
      ext a
      simp only [Finset.mem_union, Finset.mem_erase, Finset.mem_insert]
      by_cases hai : a = i
      · subst hai
        simp [hi]
      · simp [hai]
  | waiter_resumes i hi =>
    refine ⟨?_, ?_, ?_, ?_⟩
    · rw [Finset.disjoint_left]
      intro a ha
      simp only [Finset.mem_insert]
      rintro (rfl | hin)
      · exact (Finset.disjoint_left.1 h₂) ha hi
      · exact (Finset.disjoint_left.1 h₁) ha hin
    · rw [Finset.disjoint_left]
      intro a ha
      simp only [Finset.mem_erase]
      rintro ⟨hne, hin⟩
      exact (Finset.disjoint_left.1 h₂) ha hin
    · rw [Finset.disjoint_left]
      intro a ha
      simp only [Finset.mem_insert] at ha
      simp only [Finset.mem_erase]
      rcases ha with rfl | hin
      · rintro ⟨hne, _⟩
        exact hne rfl
      · rintro ⟨hne, hin₂⟩
        exact (Finset.disjoint_left.1 h₃) hin hin₂
    · rw [← h₄]
      ext a
      simp only [Finset.mem_union, Finset.mem_erase, Finset.mem_insert]
      by_cases hai : a = i
      · subst hai
        simp [hi]
      · simp [hai]

/-- Claim C8: along any interleaving of concurrent allocate/release/resume
calls from the initial state, the partition invariant holds — every id of
1..=65535 is in exactly one of free, in-use, granted-to-a-waiter, so no id
is ever held by two outstanding allocations — and the number of distinct
allocated-but-not-released ids (in use or granted) never exceeds 65535;
moreover an allocate step can only hand out an id that no one holds. -/
theorem allocator_exclusion (s : AllocatorState)
    (hs : Relation.ReflTransGen AllocatorStep AllocatorState.init s) :
    AllocatorInv s ∧ (s.in_use ∪ s.granted).card ≤ 65535 ∧
      ∀ i ∈ s.free, i ∉ s.in_use ∧ i ∉ s.granted := by
  have hinv : AllocatorInv s := by
    induction hs with
    | refl =>
      refine ⟨by simp [AllocatorState.init], by simp [AllocatorState.init],
        by simp [AllocatorState.init], by simp [AllocatorState.init]⟩
    | tail hreach hstep ih =>
      exact allocator_step_preserves _ _ hstep ih
  refine ⟨hinv, ?_, ?_⟩
  · have hsub : s.in_use ∪ s.granted ⊆ Finset.Icc 1 65535 := by
      rw [← hinv.2.2.2]
      intro a ha
      simp only [Finset.mem_union] at ha ⊢
      tauto
    have hcard := Finset.card_le_card hsub
    simpa [Nat.card_Icc] using hcard
  · intro i hfree
    exact ⟨Finset.disjoint_left.1 hinv.1 hfree,
      Finset.disjoint_left.1 hinv.2.1 hfree⟩

/-- Claim C8 (witness): the initial state itself satisfies the invariant
and the bound. -/
theorem allocator_exclusion_witness :
    AllocatorInv AllocatorState.init ∧
      (AllocatorState.init.in_use ∪ AllocatorState.init.granted).card ≤ 65535 ∧
      ∀ i ∈ AllocatorState.init.free,
        i ∉ AllocatorState.init.in_use ∧ i ∉ AllocatorState.init.granted :=
  allocator_exclusion AllocatorState.init Relation.ReflTransGen.refl

end FastCgiClient
